import Mathlib

/-!
Verification of the `chains` AppImage sandboxing library against its
natural-language specification.

Go strings are modelled as `List Char` (`GoStr`), raw files as `List Nat`
(`ByteFile`, one `Nat` per byte), and text files additionally as their list
of lines (`List GoStr`), matching the `bufio.Scanner` line loops of the
source.  Functions returning Go `(value, error)` pairs are modelled as
`value × Option GoStr`.
-/

abbrev GoStr := List Char

/-- The character list of a string literal. -/
def gs (s : String) : GoStr := s.data

/-- Single-quote character, built numerically (code 39). -/
def quoteChar : Char := Char.ofNat 39

/-- Double-quote character, built numerically (code 34). -/
def dquoteChar : Char := Char.ofNat 34

/-- `strings.Split(s, c)` for a one-character separator: split into fields,
keeping empty fields, as Go and `List.splitOn` do. -/
def splitOnChar (c : Char) (l : GoStr) : List GoStr := l.splitOn c

/-- `strings.Replace(s, pat, rep, 1)`: replace the leftmost occurrence of
`pat` (if any) by `rep`. -/
def replaceFirst (pat rep : GoStr) : GoStr → GoStr
  | [] => if pat.isPrefixOf ([] : GoStr) then rep else []
  | c :: cs =>
    if pat.isPrefixOf (c :: cs) then rep ++ (c :: cs).drop pat.length
    else c :: replaceFirst pat rep cs

-- ## Container format detector (src/pkg/chains/utility.go)

abbrev ByteFile := List Nat

/-- Byte at index `i`; reads past the end give 0 but are always guarded by
length checks in the definitions below. -/
def byteAt (f : ByteFile) (i : Nat) : Nat := f.getD i 0

/-- `HasMagic`: read `m.length` bytes at `offset` and compare; a short read
(`io.ReadFull` failure) yields `false`. -/
def HasMagic (f : ByteFile) (m : List Nat) (offset : Nat) : Bool :=
  (f.drop offset).take m.length == m

def elfMagic : List Nat := [0x7f, 0x45, 0x4c, 0x46]
def aiMagic1 : List Nat := [0x41, 0x49, 0x01]
def aiMagic2 : List Nat := [0x41, 0x49, 0x02]
def shImgMagic : List Nat := ((gs "#!/bin/sh\n#.shImg.#").map Char.toNat)

/-- `GetAppImageType`: classify by magic bytes.  1 = ISO AppImage,
2 = type-2 SquashFS AppImage, 0 = unknown valid ELF, -2 = shappimage. -/
def GetAppImageType (f : ByteFile) : Int × Option GoStr :=
  if HasMagic f elfMagic 0 then
    if HasMagic f aiMagic1 8 then (1, none)
    else if HasMagic f aiMagic2 8 then (2, none)
    else (0, none)
  else if HasMagic f shImgMagic 0 then (-2, none)
  else (-1, some (gs "unable to get AppImage type"))

/-- Little-endian read of `n` bytes at `off`. -/
def readLE (f : ByteFile) (off : Nat) : Nat → Nat
  | 0 => 0
  | n + 1 => byteAt f off + 256 * readLE f (off + 1) n

/-- Big-endian read of `n` bytes at `off`. -/
def readBE (f : ByteFile) (off : Nat) : Nat → Nat
  | 0 => 0
  | n + 1 => byteAt f off * 256 ^ n + readBE f (off + 1) n

/-- Read an ELF header field of `n` bytes at `off` using the file's declared
byte order (ident byte 5: 1 = little endian, 2 = big endian). -/
def readField (f : ByteFile) (off n : Nat) : Nat :=
  if byteAt f 5 = 2 then readBE f off n else readLE f off n

/-- Abstraction of the external Go standard library function
`debug/elf.NewFile`, which is not part of this repository.  Its full
success predicate — magic, class, data-encoding and version validation
(both ident byte 6 and the header `Version` field), and the eager
program- and section-header reads that fail on truncated files — is left
abstract in `newFileOk`; the `spec` field records only facts certainly
true of it: when `NewFile` succeeds, the ELF magic was present, the class
byte is `ELFCLASS32`/`ELFCLASS64` and the data byte one of the two byte
orders (files outside these sets are rejected with unknown-class or
unknown-data-encoding errors before `getElfSize` ever switches on the
class), and the whole header structure was readable, so the file holds at
least a complete `Header32`/`Header64`.  Theorems quantify over every
library satisfying `spec` and therefore hold for the real one. -/
structure ElfLib where
  newFileOk : ByteFile → Bool
  spec : ∀ f, newFileOk f = true →
    HasMagic f elfMagic 0 = true
    ∧ (byteAt f 4 = 1 ∨ byteAt f 4 = 2)
    ∧ (byteAt f 5 = 1 ∨ byteAt f 5 = 2)
    ∧ (byteAt f 4 = 2 → 64 ≤ f.length)
    ∧ (byteAt f 4 = 1 → 52 ≤ f.length)

/-- `getElfSize`: `elf.NewFile` must succeed first; the `switch e.Class`
then re-reads the header struct (`binary.Read`, which fails on short
files) and returns `shoff + shentsize * shnum`.  The source's `default:`
branch returning offset 0 with no error is transcribed faithfully, but it
is dead code: `NewFile` validates the class before it can be reached. -/
def getElfSize (lib : ElfLib) (f : ByteFile) : Int × Option GoStr :=
  if lib.newFileOk f then
    if byteAt f 4 = 2 then
      if 64 ≤ f.length then
        (((readField f 0x28 8 + readField f 0x3A 2 * readField f 0x3C 2 : Nat) : Int), none)
      else (-1, some (gs "unexpected EOF"))
    else if byteAt f 4 = 1 then
      if 52 ≤ f.length then
        (((readField f 0x20 4 + readField f 0x2E 2 * readField f 0x30 2 : Nat) : Int), none)
      else (-1, some (gs "unexpected EOF"))
    else (0, none)
  else (-1, some (gs "elf NewFile failed"))

/-- Digit run to number, `strconv`-style. -/
def digitsToNat (ds : GoStr) : Nat :=
  ds.foldl (fun a c => a * 10 + (c.toNat - 48)) 0

/-- `strconv.Atoi`: optional sign then a nonempty digit run; on failure the
returned value is 0 alongside the error (overflow of the 64-bit range is not
modelled; the offsets of interest are small). -/
def Atoi (s : GoStr) : Int × Option GoStr :=
  match s with
  | [] => (0, some (gs "invalid syntax"))
  | c :: ds =>
    if c = '-' then
      if ds ≠ [] ∧ ds.all Char.isDigit then (-(digitsToNat ds : Int), none)
      else (0, some (gs "invalid syntax"))
    else if c = '+' then
      if ds ≠ [] ∧ ds.all Char.isDigit then ((digitsToNat ds : Int), none)
      else (0, some (gs "invalid syntax"))
    else if (c :: ds).all Char.isDigit then ((digitsToNat (c :: ds) : Int), none)
    else (0, some (gs "invalid syntax"))

/-- The scan predicate of `getShappImageSize`: the line is longer than 10
characters, starts with `sfs_offset=`, and splits on `=` into exactly two
parts. -/
def shappMatch (l : GoStr) : Bool :=
  decide (10 < l.length) && (l.take 11 == gs "sfs_offset=") &&
    ((splitOnChar '=' l).length == 2)

def shappNotFoundMsg : GoStr :=
  gs "unable to find shappimage offset from sfs_offset variable"

/-- `getShappImageSize`, over the file's lines: find the first line matching
`shappMatch`, strip single and double quotes from the part after `=`, and
`Atoi` it; with no matching line, fail. -/
def getShappImageSize : List GoStr → Int × Option GoStr
  | [] => (-1, some shappNotFoundMsg)
  | l :: ls =>
    if shappMatch l then
      Atoi ((((splitOnChar '=' l).getD 1 []).filter (· ≠ quoteChar)).filter (· ≠ dquoteChar))
    else getShappImageSize ls

/-- Byte-level line splitting feeding `getShappImageSize` when dispatched
from `GetOffset` (`bufio.Scanner` split on newline). -/
def linesOf (f : ByteFile) : List GoStr :=
  (splitOnChar '\n' (f.map Char.ofNat))

/-- `GetOffset`: classify, then dispatch: -2 → shappimage scan, 2 → ELF
parse, 0 → missing-magic error; anything else (including type 1/ISO) falls
through to the unsupported-type error. -/
def GetOffset (lib : ElfLib) (f : ByteFile) : Int × Option GoStr :=
  let r := GetAppImageType f
  match r.2 with
  | some e => (-1, some e)
  | none =>
    if r.1 = -2 then getShappImageSize (linesOf f)
    else if r.1 = 2 then getElfSize lib f
    else if r.1 = 0 then (-1, some (gs "AppImage missing AI x02 magic at offset 0x08"))
    else (-1, some (gs "unsupported AppImage type"))

/-- The shappimage offset line `sfs_offset='1234'`. -/
def sfsLine1234 : GoStr := gs "sfs_offset=" ++ quoteChar :: (gs "1234" ++ [quoteChar])

/-- A fully valid 193-byte little-endian 64-bit ELF with the type-2
sub-magic `AI\x02` in the ident padding: ident version 1, header version
1, no program headers, two 64-byte section headers at offset 64 (a null
section and a one-byte `.shstrtab` at offset 192 named by offset 0), so
`elf.NewFile` accepts it and the embedded image offset is
`64 + 64*2 = 192`. -/
def elfSampleValid : ByteFile :=
  [0x7f, 0x45, 0x4c, 0x46, 2, 1, 1, 0, 0x41, 0x49, 0x02, 0, 0, 0, 0, 0,
   2, 0, 0x3e, 0, 1, 0, 0, 0]
  ++ List.replicate 16 0
  ++ [0x40, 0, 0, 0, 0, 0, 0, 0,
      0, 0, 0, 0, 0x40, 0, 0x38, 0, 0, 0, 0x40, 0, 2, 0, 1, 0]
  ++ List.replicate 64 0
  ++ ([0, 0, 0, 0, 3, 0, 0, 0] ++ List.replicate 16 0
      ++ [0xc0, 0, 0, 0, 0, 0, 0, 0, 1, 0, 0, 0, 0, 0, 0, 0]
      ++ List.replicate 8 0 ++ [1, 0, 0, 0, 0, 0, 0, 0] ++ List.replicate 8 0)
  ++ [0]

/-- The same fully valid ELF with the type-1 (ISO) sub-magic `AI\x01`. -/
def isoFile : ByteFile := elfSampleValid.set 10 0x01

/-- A concrete checker usable as an `ElfLib` witness: exactly the facts
`ElfLib.spec` records, plus the ident-version check. -/
def cElfCheck (f : ByteFile) : Bool :=
  HasMagic f elfMagic 0 && (byteAt f 4 == 1 || byteAt f 4 == 2)
    && (byteAt f 5 == 1 || byteAt f 5 == 2) && (byteAt f 6 == 1)
    && (if byteAt f 4 == 2 then decide (64 ≤ f.length) else decide (52 ≤ f.length))

def cElfLib : ElfLib where
  newFileOk := cElfCheck
  spec := by
    intro f h
    unfold cElfCheck at h
    simp only [Bool.and_eq_true, Bool.or_eq_true, beq_iff_eq] at h
    obtain ⟨⟨⟨⟨h1, h2⟩, h3⟩, h4⟩, h5⟩ := h
    refine ⟨h1, h2, h3, ?_, ?_⟩
    · intro hc
      rw [hc] at h5
      simpa using h5
    · intro hc
      rw [hc] at h5
      simpa using h5

-- ## General path helpers (src/pkg/chains/utility.go and part_002)

/-- Segment processing step of Go `filepath.Clean` (unix): push ordinary
segments, let `..` pop the previous segment unless the output is empty (at
the root `..` vanishes, otherwise it is kept) or already ends in `..`.
The accumulator is kept reversed (head = most recent segment). -/
def cleanStep (rooted : Bool) (acc : List GoStr) (e : GoStr) : List GoStr :=
  if e = gs ".." then
    match acc with
    | [] => if rooted then [] else [gs ".."]
    | h :: t => if h = gs ".." then e :: h :: t else t
  else e :: acc

def cleanSegs (rooted : Bool) (elems : List GoStr) : List GoStr :=
  elems.foldl (cleanStep rooted) []

/-- Go `filepath.Clean` for unix paths: empty input is `.`; otherwise split
on `/`, drop empty and `.` segments, process `..`, and reassemble. -/
def filepathClean (p : GoStr) : GoStr :=
  if p = [] then gs "." else
  let rooted := p.head? = some '/'
  let elems := (splitOnChar '/' p).filter (fun e => !(e == []) && !(e == gs "."))
  let joined := List.intercalate ['/'] (cleanSegs rooted elems).reverse
  if rooted then '/' :: joined
  else if joined = [] then gs "." else joined

/-- Go `filepath.Join` restricted to two elements: empty elements are
skipped, the rest joined with `/` and cleaned; all-empty input stays
empty. -/
def filepathJoin (a b : GoStr) : GoStr :=
  if a = [] then (if b = [] then [] else filepathClean b)
  else if b = [] then filepathClean a
  else filepathClean (a ++ '/' :: b)

/-- Go `path.Base`: empty input is `.`; all-slash input is `/`; otherwise
the part after the last `/`, with trailing slashes removed first. -/
def pathBase (s : GoStr) : GoStr :=
  if s = [] then gs "." else
  let t := (s.reverse.dropWhile (· = '/')).reverse
  if t = [] then gs "/" else
  (t.reverse.takeWhile (· ≠ '/')).reverse

-- ## Directory expansion (src/unnamed/part_002)

/-- The host environment feeding `xdg.*` after the real-home reload:
`home` plays both the `xdg.Home` and the `xdg-home` map-value role, exactly
as in the source, where `xdgDirs["xdg-home"] = xdg.Home`. -/
structure XdgEnv where
  home : GoStr
  desktop : GoStr
  download : GoStr
  documents : GoStr
  music : GoStr
  pictures : GoStr
  videos : GoStr
  templates : GoStr
  publicShare : GoStr
  configHome : GoStr
  cacheHome : GoStr
  dataHome : GoStr
  stateHome : GoStr

/-- The `xdgDirs` map of `ExpandDir`/`ExpandGenericDir`, in source order. -/
def xdgPairs (env : XdgEnv) : List (GoStr × GoStr) :=
  [(gs "xdg-home", env.home),
   (gs "xdg-desktop", env.desktop),
   (gs "xdg-download", env.download),
   (gs "xdg-documents", env.documents),
   (gs "xdg-music", env.music),
   (gs "xdg-pictures", env.pictures),
   (gs "xdg-videos", env.videos),
   (gs "xdg-templates", env.templates),
   (gs "xdg-publicshare", env.publicShare),
   (gs "xdg-config", env.configHome),
   (gs "xdg-cache", env.cacheHome),
   (gs "xdg-data", env.dataHome),
   (gs "xdg-state", env.stateHome)]

/-- One iteration of the `expandEither` key loop.  The source first skips
keys that are not a prefix (`len(key) > len(str) || key != str[:len(key)]`),
then re-tests `key == str[:len(key)]` — which at that point is always true,
so a prefix key is substituted even without a `/` boundary. -/
def expandStep (str : GoStr) (kv : GoStr × GoStr) : GoStr :=
  if kv.1.isPrefixOf str then replaceFirst kv.1 kv.2 str else str

/-- `expandEither`: substitute a matching `xdg-` key, `filepath.Clean`,
expand a leading `~` with the home directory, and replace the first
occurrence of `xdg.Home` with `xdgDirs["xdg-home"]` — both are the same
string, making the last step the identity it also is in the source. -/
def expandEither (env : XdgEnv) (str0 : GoStr) : GoStr :=
  let str1 := (xdgPairs env).foldl expandStep str0
  let str2 := filepathClean str1
  let str3 := if str2.head? = some '~' then replaceFirst (gs "~") env.home str2 else str2
  replaceFirst env.home env.home str3

/-- `ExpandDir` builds the real-directory map and calls `expandEither`. -/
def ExpandDir (env : XdgEnv) (s : GoStr) : GoStr := expandEither env s

/-- `ExpandGenericDir` builds the identical map in the source, so it is the
same function as `ExpandDir`. -/
def ExpandGenericDir (env : XdgEnv) (s : GoStr) : GoStr := expandEither env s

-- ## File/device grant normalization (src/pkg/chains/utility.go)

/-- `CleanFile`: note the mode-suffix test looks at the last three
characters of the original string, while the suffix is appended after
expansion. -/
def CleanFile (env : XdgEnv) (str : GoStr) : GoStr :=
  let ex := if 3 ≤ str.length then str.drop (str.length - 3) else []
  let str1 := ExpandDir env str
  if ex ≠ gs ":ro" ∧ ex ≠ gs ":rw" then str1 ++ gs ":ro" else str1

def CleanFiles (env : XdgEnv) (s : List GoStr) : List GoStr :=
  s.map (CleanFile env)

/-- `CleanDevice`: strip a literal `/dev/` prefix (first occurrence, which
is the prefix) from sufficiently long names. -/
def CleanDevice (str : GoStr) : GoStr :=
  if 5 < str.length ∧ str.take 5 = gs "/dev/" then replaceFirst (gs "/dev/") [] str
  else str

def CleanDevices (s : List GoStr) : List GoStr := s.map CleanDevice

/-- `Contains`: index of the first exact match, if any (Go returns
`(-1, false)` on a miss). -/
def Contains : List GoStr → GoStr → Option Nat
  | [], _ => none
  | x :: xs, str => if x = str then some 0 else (Contains xs str).map (· + 1)

/-- `ContainsAny`: first index in `s` of any element of `s2`, scanning the
candidates of `s2` in order, each across all of `s`. -/
def ContainsAny (s : List GoStr) : List GoStr → Option Nat
  | [] => none
  | y :: ys =>
    match Contains s y with
    | some n => some n
    | none => ContainsAny s ys

-- ## Permission model (src/pkg/chains/permissions.go)

structure AppImagePerms where
  Level : Int
  Files : List GoStr
  Devices : List GoStr
  Sockets : List GoStr
  DataDir : Bool
deriving DecidableEq

def InvalidSocket : GoStr := gs "socket invalid"

/-- The closed socket enumeration (the keys of `SocketMap`; each maps to
itself as a string). -/
def validSockets : List GoStr :=
  [gs "x11", gs "alsa", gs "audio", gs "pulseaudio", gs "wayland", gs "dbus",
   gs "cgroup", gs "network", gs "pid", gs "pipewire", gs "session",
   gs "user", gs "uts"]

/-- `SocketFromString`: map lookup; a miss returns the zero-value socket
together with `InvalidSocket`. -/
def SocketFromString (s : GoStr) : GoStr × Option GoStr :=
  if validSockets.contains s then (s, none) else ([], some InvalidSocket)

/-- `removeFile`: canonicalize the argument, strip its mode suffix, and
erase the first entry matching either mode variant. -/
def removeFile (env : XdgEnv) (p : AppImagePerms) (str0 : GoStr) : AppImagePerms :=
  let str1 := (CleanFiles env [str0]).getD 0 []
  let s := splitOnChar ':' str1
  let str2 := List.intercalate [':'] s.dropLast
  match ContainsAny p.Files [str2 ++ gs ":ro", str2 ++ gs ":rw"] with
  | some i => { p with Files := p.Files.take i ++ p.Files.drop (i + 1) }
  | none => p

def RemoveFiles (env : XdgEnv) (p : AppImagePerms) (s : List GoStr) : AppImagePerms :=
  s.foldl (removeFile env) p

/-- `AddFiles`: remove same-named entries, then append the cleaned batch. -/
def AddFiles (env : XdgEnv) (p : AppImagePerms) (s : List GoStr) : AppImagePerms :=
  let p1 := RemoveFiles env p s
  { p1 with Files := p1.Files ++ CleanFiles env s }

def removeDevice (p : AppImagePerms) (str : GoStr) : AppImagePerms :=
  match Contains p.Devices str with
  | some i => { p with Devices := p.Devices.take i ++ p.Devices.drop (i + 1) }
  | none => p

def RemoveDevices (p : AppImagePerms) (s : List GoStr) : AppImagePerms :=
  s.foldl removeDevice p

def AddDevices (p : AppImagePerms) (s : List GoStr) : AppImagePerms :=
  let p1 := RemoveDevices p s
  { p1 with Devices := p1.Devices ++ CleanDevices s }

/-- `removeSocket`: the Go loop ranges over a snapshot of the slice header
while the in-place `append(p.Sockets[:i], p.Sockets[i+1:]...)` shifts the
shared backing array and shrinks the live length.  The simulation tracks
the backing array (of the fixed snapshot length) and the live length; on a
removal at index `i`, positions `i..l-2` receive the old `i+1..l-1` and
the cell at `l-1` goes stale.  When a later iteration reads a stale cell —
an index at or beyond the live length — that still matches the target, Go
evaluates `p.Sockets[i+1:]` with `i+1` beyond the slice length and panics
with a slice-bounds error; the panic is modelled as `none`.  Duplicate
socket entries (creatable by one batch `AddSockets` call) trigger it. -/
def removeSocket (p : AppImagePerms) (str : GoStr) : Option AppImagePerms :=
  let n := p.Sockets.length
  let st := (List.range n).foldl
    (fun st i =>
      match st with
      | none => none
      | some (arr, l) =>
        if arr.getD i [] = str then
          if i < l then
            some (arr.take i ++ (arr.drop (i + 1)).take (l - 1 - i) ++ arr.drop (l - 1),
              l - 1)
          else none
        else some (arr, l))
    (some (p.Sockets, n))
  st.map (fun st => { p with Sockets := st.1.take st.2 })

def RemoveSockets (p : AppImagePerms) (s : List GoStr) : Option AppImagePerms :=
  s.foldl (fun q str => q.bind (fun q2 => removeSocket q2 str)) (some p)

/-- The per-token loop of `AddSockets`: on the first invalid token it
returns the error, keeping the sockets already appended. -/
def addSocketsLoop (p : AppImagePerms) : List GoStr → AppImagePerms × Option GoStr
  | [] => (p, none)
  | t :: ts =>
    let r := SocketFromString t
    match r.2 with
    | some e => (p, some e)
    | none => addSocketsLoop { p with Sockets := p.Sockets ++ [r.1] } ts

/-- `AddSockets`: empty batches succeed immediately; otherwise remove the
tokens first — a removal panic (`none`) propagates — then append one by
one, stopping at the first invalid token. -/
def AddSockets (p : AppImagePerms) (ss : List GoStr) :
    Option (AppImagePerms × Option GoStr) :=
  if ss = [] then some (p, none)
  else (RemoveSockets p ss).map (fun p1 => addSocketsLoop p1 ss)

-- ## Container handle mount (src/pkg/chains/appimage.go)

/-- The `AppImage` fields the policy compiler and mount logic read. -/
structure AiState where
  Path : GoStr
  md5 : GoStr
  dataDir : GoStr
  rootDir : GoStr
  tempDir : GoStr
  mountDir : GoStr
  Offset : Int

/-- Host facts consulted by `Mount`: `DirExists` and the
`/proc/self/mountinfo` scan of `isMountPoint`. -/
structure MountEnv where
  dirExists : GoStr → Bool
  isMountPoint : GoStr → Bool

def NoMountPoint : GoStr := gs "mount point doesn't exist"

/-- Outcome of a `Mount` call: an error, an invocation of the squashfuse
helper `mounted src dest offset`, or a skip because something is already
mounted at the chosen directory. -/
inductive MountResult where
  | err : GoStr → MountResult
  | mounted : GoStr → GoStr → Int → MountResult
  | reused : MountResult
deriving DecidableEq

/-- `Mount` with exactly one explicit target — the `len(dest) == 1` branch
of `*AppImage.Mount` (more than one argument panics; none generates temp
directories, neither of which C2 concerns).  The target is only checked for
existence; the mount itself uses `ai.mountDir`. -/
def MountExplicit (env : MountEnv) (ai : AiState) (target : GoStr) : MountResult :=
  if ¬ env.dirExists target then .err NoMountPoint
  else if ¬ env.isMountPoint ai.mountDir then .mounted ai.Path ai.mountDir ai.Offset
  else .reused

-- ## Policy compiler (src/pkg/wrap/wrap.go)

/-- Host environment read by the policy compiler: the xdg values after the
real-home reload, the runtime directory, uid, display-related environment
variables, and the symlink resolver (`filepath.EvalSymlinks`, external to
the repository, hence a parameter; it yields the empty string on error). -/
structure WrapEnv where
  xdg : XdgEnv
  runtimeDir : GoStr
  uid : GoStr
  xauthorityVar : GoStr
  displayVar : GoStr
  tmpdirVar : Option GoStr
  waylandDisplay : Option GoStr
  evalSymlinks : GoStr → GoStr

/-- `filepath.Join` of one element. -/
def filepathJoin1 (a : GoStr) : GoStr :=
  if a = [] then [] else filepathClean a

/-- `filepath.Join` of three nonempty-ish elements as used in the source. -/
def filepathJoin3 (a b c : GoStr) : GoStr :=
  if a = [] ∧ b = [] ∧ c = [] then [] else filepathClean ((a ++ '/' :: b) ++ '/' :: c)

/-- `ai.resolve`: symlink-resolve `rootDir/src`, falling back to the
literal `/`-prefixed path when resolution fails (empty result). -/
def resolve (env : WrapEnv) (ai : AiState) (src : GoStr) : GoStr :=
  let s := env.evalSymlinks (filepathJoin ai.rootDir src)
  if s = [] then '/' :: src else s

/-- The baseline argument block of `mainWrapArgs`, emitted at every level
≥ 1. -/
def baselineArgs (env : WrapEnv) (ai : AiState) : List GoStr :=
  [gs "--setenv", gs "TMPDIR", gs "/tmp",
   gs "--setenv", gs "HOME", env.xdg.home,
   gs "--setenv", gs "APPDIR", gs "/tmp/.mount_" ++ ai.md5,
   gs "--setenv", gs "APPIMAGE", filepathJoin (gs "/app") (pathBase ai.Path),
   gs "--setenv", gs "ARGV0", filepathJoin1 (pathBase ai.Path),
   gs "--setenv", gs "XDG_DESKTOP_DIR", env.xdg.desktop,
   gs "--setenv", gs "XDG_DOWNLOAD_DIR", env.xdg.download,
   gs "--setenv", gs "XDG_DOCUMENTS_DIR", env.xdg.documents,
   gs "--setenv", gs "XDG_MUSIC_DIR", env.xdg.music,
   gs "--setenv", gs "XDG_PICTURES_DIR", env.xdg.pictures,
   gs "--setenv", gs "XDG_VIDEOS_DIR", env.xdg.videos,
   gs "--setenv", gs "XDG_TEMPLATES_DIR", env.xdg.templates,
   gs "--setenv", gs "XDG_PUBLICSHARE_DIR", env.xdg.publicShare,
   gs "--setenv", gs "XDG_DATA_HOME", env.xdg.dataHome,
   gs "--setenv", gs "XDG_CONFIG_HOME", env.xdg.configHome,
   gs "--setenv", gs "XDG_CACHE_HOME", env.xdg.cacheHome,
   gs "--setenv", gs "XDG_STATE_HOME", env.xdg.stateHome,
   gs "--setenv", gs "XDG_RUNTIME_DIR", env.runtimeDir,
   gs "--die-with-parent",
   gs "--perms", gs "0700",
   gs "--dir", filepathJoin1 env.runtimeDir,
   gs "--dev", gs "/dev",
   gs "--proc", gs "/proc",
   gs "--bind", filepathJoin3 env.xdg.cacheHome (gs "appimage") ai.md5, env.xdg.cacheHome,
   gs "--ro-bind-try", resolve env ai (gs "opt"), gs "/opt",
   gs "--ro-bind-try", resolve env ai (gs "bin"), gs "/bin",
   gs "--ro-bind-try", resolve env ai (gs "sbin"), gs "/sbin",
   gs "--ro-bind-try", resolve env ai (gs "lib"), gs "/lib",
   gs "--ro-bind-try", resolve env ai (gs "lib32"), gs "/lib32",
   gs "--ro-bind-try", resolve env ai (gs "lib64"), gs "/lib64",
   gs "--ro-bind-try", resolve env ai (gs "usr/bin"), gs "/usr/bin",
   gs "--ro-bind-try", resolve env ai (gs "usr/sbin"), gs "/usr/sbin",
   gs "--ro-bind-try", resolve env ai (gs "usr/lib"), gs "/usr/lib",
   gs "--ro-bind-try", resolve env ai (gs "usr/lib32"), gs "/usr/lib32",
   gs "--ro-bind-try", resolve env ai (gs "usr/lib64"), gs "/usr/lib64",
   gs "--dir", gs "/app",
   gs "--bind", ai.Path, filepathJoin (gs "/app") (pathBase ai.Path)]

/-- The user font/theme/toolkit config binds shared by levels 1 and 2. -/
def userConfigBinds (env : WrapEnv) : List GoStr :=
  [gs "--ro-bind-try", filepathJoin env.xdg.dataHome (gs "fonts"),
     filepathJoin env.xdg.dataHome (gs "fonts"),
   gs "--ro-bind-try", filepathJoin env.xdg.dataHome (gs "themes"),
     filepathJoin env.xdg.dataHome (gs "themes"),
   gs "--ro-bind-try", filepathJoin env.xdg.dataHome (gs "icons"),
     filepathJoin env.xdg.dataHome (gs "icons"),
   gs "--ro-bind-try", filepathJoin env.xdg.configHome (gs "fontconfig"),
     filepathJoin env.xdg.configHome (gs "fontconfig"),
   gs "--ro-bind-try", filepathJoin env.xdg.configHome (gs "gtk-3.0"),
     filepathJoin env.xdg.configHome (gs "gtk-3.0"),
   gs "--ro-bind-try", filepathJoin env.xdg.configHome (gs "gtk-4.0"),
     filepathJoin env.xdg.configHome (gs "gtk-4.0"),
   gs "--ro-bind-try", filepathJoin env.xdg.configHome (gs "qt5ct"),
     filepathJoin env.xdg.configHome (gs "qt5ct"),
   gs "--ro-bind-try", filepathJoin env.xdg.configHome (gs "qt6ct"),
     filepathJoin env.xdg.configHome (gs "qt6ct"),
   gs "--ro-bind-try", filepathJoin env.xdg.configHome (gs "Kvantum"),
     filepathJoin env.xdg.configHome (gs "Kvantum"),
   gs "--ro-bind-try", filepathJoin env.xdg.configHome (gs "kdeglobals"),
     filepathJoin env.xdg.configHome (gs "kdeglobals"),
   gs "--ro-bind-try", filepathJoin3 env.xdg.configHome (gs "lxde") (gs "lxde.conf"),
     filepathJoin3 env.xdg.configHome (gs "lxde") (gs "lxde.conf")]

/-- The per-level argument block: level 1 exposes `/dev`, `/sys`, blanket
`usr`/`etc`, the systemd runtime directory, and the user config binds;
level 2 exposes a narrow allow-list of `etc`/`usr/share` subpaths plus the
same user config binds; any other level adds nothing. -/
def levelTier (env : WrapEnv) (ai : AiState) (level : Int) : List GoStr :=
  if level = 1 then
    [gs "--dev-bind", gs "/dev", gs "/dev",
     gs "--ro-bind", gs "/sys", gs "/sys",
     gs "--ro-bind-try", resolve env ai (gs "usr"), gs "/usr",
     gs "--ro-bind-try", resolve env ai (gs "etc"), gs "/etc",
     gs "--ro-bind-try", resolve env ai (gs "/run/systemd"), gs "/run/systemd"]
    ++ userConfigBinds env
  else if level = 2 then
    [gs "--ro-bind-try", resolve env ai (gs "etc/fonts"), gs "/etc/fonts",
     gs "--ro-bind-try", resolve env ai (gs "etc/ld.so.cache"), gs "/etc/ld.so.cache",
     gs "--ro-bind-try", resolve env ai (gs "etc/mime.types"), gs "/etc/mime.types",
     gs "--ro-bind-try", resolve env ai (gs "etc/xdg"), gs "/etc/xdg",
     gs "--ro-bind-try", resolve env ai (gs "usr/share/fontconfig"), gs "/usr/share/fontconfig",
     gs "--ro-bind-try", resolve env ai (gs "usr/share/fonts"), gs "/usr/share/fonts",
     gs "--ro-bind-try", resolve env ai (gs "usr/share/icons"), gs "/usr/share/icons",
     gs "--ro-bind-try", resolve env ai (gs "usr/share/themes"), gs "/usr/share/themes",
     gs "--ro-bind-try", resolve env ai (gs "usr/share/applications"), gs "/usr/share/applications",
     gs "--ro-bind-try", resolve env ai (gs "usr/share/mime"), gs "/usr/share/mime",
     gs "--ro-bind-try", resolve env ai (gs "usr/share/libdrm"), gs "/usr/share/libdrm",
     gs "--ro-bind-try", resolve env ai (gs "usr/share/vulkan"), gs "/usr/share/vulkan",
     gs "--ro-bind-try", resolve env ai (gs "usr/share/glvnd"), gs "/usr/share/glvnd",
     gs "--ro-bind-try", resolve env ai (gs "usr/share/glib-2.0"), gs "/usr/share/glib-2.0",
     gs "--ro-bind-try", resolve env ai (gs "usr/share/terminfo"), gs "/usr/share/terminfo"]
    ++ userConfigBinds env
  else []

/-- `parseFiles`: one bind per grant, read-write for `:rw`, read-only for
`:ro`; source and destination are expanded independently. -/
def parseFiles (env : WrapEnv) (perms : AppImagePerms) : List GoStr :=
  perms.Files.foldl
    (fun s val =>
      let sl := splitOnChar ':' val
      let ex := (sl.getLast?).getD []
      let dir := List.intercalate [':'] sl.dropLast
      if ex = gs "rw" then
        s ++ [gs "--bind-try", ExpandDir env.xdg dir, ExpandGenericDir env.xdg dir]
      else if ex = gs "ro" then
        s ++ [gs "--ro-bind-try", ExpandDir env.xdg dir, ExpandGenericDir env.xdg dir]
      else s)
    []

/-- The fixed auxiliary bundle pulled in by the `dri` device class. -/
def driBundle (env : WrapEnv) (ai : AiState) : List GoStr :=
  [gs "--ro-bind", gs "/sys/dev/char", gs "/sys/dev/char",
   gs "--ro-bind", gs "/sys/devices/pci0000:00", gs "/sys/devices/pci0000:00",
   gs "--dev-bind-try", gs "/dev/nvidiactl", gs "/dev/nvidiactl",
   gs "--dev-bind-try", gs "/dev/nvidia0", gs "/dev/nvidia0",
   gs "--dev-bind-try", gs "/dev/nvidia-modeset", gs "/dev/nvidia-modeset",
   gs "--ro-bind-try", resolve env ai (gs "usr/share/glvnd"), gs "/usr/share/glvnd"]

def inputBundle : List GoStr :=
  [gs "--ro-bind", gs "/sys/class/input", gs "/sys/class/input"]

/-- `parseDevices`: a device bind per entry (prefixing `/dev/` when absent)
plus the fixed bundles for recognized classes.  The Go `for device := range
devices` map iteration order is unspecified; `dri` before `input` is fixed
here, and the claims do not depend on it. -/
def parseDevices (env : WrapEnv) (ai : AiState) (perms : AppImagePerms) : List GoStr :=
  let d := perms.Devices.foldl
    (fun d v =>
      let v2 := if v.length < 5 ∨ v.take 5 ≠ gs "/dev/" then filepathJoin (gs "/dev") v else v
      d ++ [gs "--dev-bind-try", v2, v2])
    []
  let d := if (Contains perms.Devices (gs "dri")).isSome then d ++ driBundle env ai else d
  if (Contains perms.Devices (gs "input")).isSome then d ++ inputBundle else d

/-- `XAUTHORITY` with the `~/.Xauthority` fallback. -/
def xAuthorityOf (env : WrapEnv) : GoStr :=
  if env.xauthorityVar = [] then env.xdg.home ++ gs "/.Xauthority" else env.xauthorityVar

/-- `DISPLAY` with every `:` removed. -/
def xDisplayOf (env : WrapEnv) : GoStr := env.displayVar.filter (· ≠ ':')

/-- `TMPDIR` with the `/tmp` fallback. -/
def tempDirOf (env : WrapEnv) : GoStr := (env.tmpdirVar).getD (gs "/tmp")

/-- `WAYLAND_DISPLAY` ("" when unset). -/
def wDisplayOf (env : WrapEnv) : GoStr := (env.waylandDisplay).getD []

def waylandBundle (env : WrapEnv) (ai : AiState) : List GoStr :=
  [gs "--ro-bind-try", filepathJoin env.runtimeDir (wDisplayOf env),
     gs "/run/user/" ++ env.uid ++ gs "/wayland-0",
   gs "--ro-bind-try", resolve env ai (gs "/usr/share/X11"), gs "/usr/share/X11",
   gs "--setenv", gs "WAYLAND_DISPLAY", gs "wayland-0",
   gs "--setenv", gs "_JAVA_AWT_WM_NONREPARENTING", gs "1",
   gs "--setenv", gs "MOZ_ENABLE_WAYLAND", gs "1",
   gs "--setenv", gs "XDG_SESSION_TYPE", gs "wayland"]

def x11Bundle (env : WrapEnv) (ai : AiState) : List GoStr :=
  [gs "--ro-bind-try", xAuthorityOf env, env.xdg.home ++ gs "/.Xauthority",
   gs "--ro-bind-try", tempDirOf env ++ gs "/.X11-unix/X" ++ xDisplayOf env,
     gs "/tmp/.X11-unix/X" ++ xDisplayOf env,
   gs "--ro-bind-try", resolve env ai (gs "/usr/share/X11"), gs "/usr/share/X11",
   gs "--setenv", gs "QT_QPA_PLATFORM", gs "xcb",
   gs "--setenv", gs "XAUTHORITY", env.xdg.home ++ gs "/.Xauthority"]

def networkBundle (env : WrapEnv) (ai : AiState) : List GoStr :=
  [gs "--share-net",
   gs "--ro-bind-try", resolve env ai (gs "/etc/ca-certificates"), gs "/etc/ca-certificates",
   gs "--ro-bind-try", resolve env ai (gs "/etc/resolv.conf"), gs "/etc/resolv.conf",
   gs "--ro-bind-try", resolve env ai (gs "/etc/ssl"), gs "/etc/ssl",
   gs "--ro-bind-try", resolve env ai (gs "/etc/pki"), gs "/etc/pki",
   gs "--ro-bind-try", resolve env ai (gs "/usr/share/ca-certificates"),
     gs "/usr/share/ca-certificates"]

/-- The positive per-socket bundles (the `sockets` map), keyed in source
listing order. -/
def socketArgsMap (env : WrapEnv) (ai : AiState) (key : GoStr) : List GoStr :=
  if key = gs "alsa" then
    [gs "--ro-bind-try", resolve env ai (gs "/usr/share/alsa"), gs "/usr/share/alsa",
     gs "--ro-bind-try", resolve env ai (gs "/etc/alsa"), gs "/etc/alsa",
     gs "--ro-bind-try", resolve env ai (gs "/etc/group"), gs "/etc/group",
     gs "--dev-bind", resolve env ai (gs "/dev/snd"), gs "/dev/snd"]
  else if key = gs "audio" then
    [gs "--ro-bind-try", filepathJoin env.runtimeDir (gs "pulse"),
       gs "/run/user/" ++ env.uid ++ gs "/pulse",
     gs "--ro-bind-try", resolve env ai (gs "/usr/share/alsa"), gs "/usr/share/alsa",
     gs "--ro-bind-try", resolve env ai (gs "/usr/share/pulseaudio"), gs "/usr/share/pulseaudio",
     gs "--ro-bind-try", resolve env ai (gs "/etc/alsa"), gs "/etc/alsa",
     gs "--ro-bind-try", resolve env ai (gs "/etc/group"), gs "/etc/group",
     gs "--ro-bind-try", resolve env ai (gs "/etc/pulse"), gs "/etc/pulse",
     gs "--dev-bind", resolve env ai (gs "/dev/snd"), gs "/dev/snd"]
  else if key = gs "dbus" then
    [gs "--ro-bind-try", filepathJoin env.runtimeDir (gs "bus"),
       gs "/run/user/" ++ env.uid ++ gs "/bus"]
  else if key = gs "network" then networkBundle env ai
  else if key = gs "pipewire" then
    [gs "--ro-bind-try", filepathJoin env.runtimeDir (gs "pipewire-0"),
       gs "/run/user/" ++ env.uid ++ gs "/pipewire-0"]
  else if key = gs "pulseaudio" then
    [gs "--ro-bind-try", filepathJoin env.runtimeDir (gs "pulse"),
       gs "/run/user/" ++ env.uid ++ gs "/pulse",
     gs "--ro-bind-try", resolve env ai (gs "/etc/pulse"), gs "/etc/pulse"]
  else if key = gs "wayland" then waylandBundle env ai
  else if key = gs "x11" then x11Bundle env ai
  else []

/-- The negative per-socket bundles (the `unsocks` map). -/
def unsocketArgsMap (key : GoStr) : List GoStr :=
  if key = gs "cgroup" then [gs "--unshare-cgroup-try"]
  else if key = gs "ipc" then [gs "--unshare-ipc"]
  else if key = gs "network" then [gs "--unshare-net"]
  else if key = gs "pid" then [gs "--unshare-pid"]
  else if key = gs "session" then [gs "--new-session"]
  else if key = gs "user" then [gs "--unshare-user-try"]
  else if key = gs "uts" then [gs "--unshare-uts"]
  else []

/-- The keys of the `sockets` map (including `ipc`, which is in the map but
not in the socket enumeration), in source listing order.  Go iterates the
map in unspecified order; the claims do not depend on the order. -/
def socketKeys : List GoStr :=
  [gs "alsa", gs "audio", gs "cgroup", gs "dbus", gs "ipc", gs "network",
   gs "pid", gs "pipewire", gs "pulseaudio", gs "session", gs "user",
   gs "uts", gs "wayland", gs "x11"]

/-- One iteration of the `parseSockets` loop: granted sockets emit their
bundle unless (a) it is `x11` while the host reports Wayland and the model
also grants `wayland` (skipped entirely), or (b) it is `network` at level 1
(only the raw `--share-net`); ungranted sockets emit their negative
bundle. -/
def socketContrib (env : WrapEnv) (ai : AiState) (perms : AppImagePerms)
    (key : GoStr) : List GoStr :=
  if perms.Sockets.contains key then
    if env.waylandDisplay.isSome ∧ perms.Sockets.contains (gs "wayland") ∧ key = gs "x11" then []
    else if key = gs "network" ∧ perms.Level = 1 then [gs "--share-net"]
    else socketArgsMap env ai key
  else unsocketArgsMap key

def parseSockets (env : WrapEnv) (ai : AiState) (perms : AppImagePerms) : List GoStr :=
  socketKeys.foldl (fun s key => s ++ socketContrib env ai perms key) []

/-- `mainWrapArgs`: baseline, level tier, file, socket and device grants,
the terminator naming the entry point, then the home handling and the
temp/mount binds prepended, in source order. -/
def mainWrapArgs (env : WrapEnv) (ai : AiState) (perms : AppImagePerms) : List GoStr :=
  let cmdArgs := baselineArgs env ai ++ levelTier env ai perms.Level
  let cmdArgs := cmdArgs ++ parseFiles env perms
  let cmdArgs := cmdArgs ++ parseSockets env ai perms
  let cmdArgs := cmdArgs ++ parseDevices env ai perms
  let cmdArgs := cmdArgs ++ [gs "--", gs "/tmp/.mount_" ++ ai.md5 ++ gs "/AppRun"]
  let cmdArgs :=
    (if perms.DataDir then [gs "--bind", ai.dataDir, env.xdg.home]
     else [gs "--tmpfs", env.xdg.home]) ++ cmdArgs
  [gs "--bind", ai.tempDir, gs "/tmp",
   gs "--bind", ai.mountDir, gs "/tmp/.mount_" ++ ai.md5] ++ cmdArgs

def wrapNotMountedMsg : GoStr :=
  gs "AppImage must be mounted before getting its wrap arguments"

/-- `WrapArgs`: requires a mounted handle; level 0 returns the passthrough
arguments unchanged; otherwise the compiled directives with the passthrough
arguments appended. -/
def WrapArgs (env : WrapEnv) (ai : AiState) (perms : AppImagePerms)
    (args : List GoStr) : Except GoStr (List GoStr) :=
  if ai.mountDir = [] then .error wrapNotMountedMsg
  else if perms.Level = 0 then .ok args
  else .ok (mainWrapArgs env ai perms ++ args)

def sandboxLevelMsg : GoStr := gs "permissions level must be 1 - 3"

/-- `Sandbox`: the level guard precedes everything; a successful result is
the argument vector handed to the external bwrap enforcer.  (The cache-dir
and no-integration file side effects, and the bwrap lookup, contribute no
directives and are not modelled.) -/
def Sandbox (env : WrapEnv) (ai : AiState) (perms : AppImagePerms)
    (args : List GoStr) : Except GoStr (List GoStr) :=
  if perms.Level < 1 ∨ perms.Level > 3 then .error sandboxLevelMsg
  else WrapArgs env ai perms args

/-- The Go zero value `AppImagePerms{}`. -/
def permsZero : AppImagePerms :=
  { Level := 0, Files := [], Devices := [], Sockets := [], DataDir := false }

/-- A concrete host environment for witnesses and counterexamples. -/
def cEnv : XdgEnv :=
  { home := gs "/home/u", desktop := gs "/home/u/Desktop",
    download := gs "/home/u/Downloads", documents := gs "/home/u/Documents",
    music := gs "/home/u/Music", pictures := gs "/home/u/Pictures",
    videos := gs "/home/u/Videos", templates := gs "/home/u/Templates",
    publicShare := gs "/home/u/Public", configHome := gs "/home/u/.config",
    cacheHome := gs "/home/u/.cache", dataHome := gs "/home/u/.local/share",
    stateHome := gs "/home/u/.local/state" }

/-- A permission model holding both mode variants of the same path, as a
single batch call `AddFiles("/x:ro", "/x:rw")` produces. -/
def pFxFx : AppImagePerms :=
  { Level := 2, Files := [gs "/x:ro", gs "/x:rw"], Devices := [], Sockets := [],
    DataDir := true }

/-- A concrete compiler environment: Wayland active, empty `XAUTHORITY`,
display `:0`, no `TMPDIR`, and a resolver that always fails (so `resolve`
falls back to the literal paths). -/
def cWrapEnv : WrapEnv :=
  { xdg := cEnv, runtimeDir := gs "/run/user/1000", uid := gs "1000",
    xauthorityVar := [], displayVar := gs ":0", tmpdirVar := none,
    waylandDisplay := some (gs "wayland-0"), evalSymlinks := fun _ => [] }

/-- A concrete mounted handle. -/
def cAi : AiState :=
  { Path := gs "/apps/foo.AppImage", md5 := gs "abc123",
    dataDir := gs "/apps/foo.AppImage.home", rootDir := gs "/",
    tempDir := gs "/run/user/1000/aisap/tmp/abc123",
    mountDir := gs "/run/user/1000/aisap/mount/abc123", Offset := 384 }

/-- A freshly opened, never mounted handle (`mountDir` empty). -/
def cAiFresh : AiState :=
  { Path := gs "/apps/foo.AppImage", md5 := gs "abc123",
    dataDir := gs "/apps/foo.AppImage.home", rootDir := gs "/",
    tempDir := gs "/tmp/appimage-abc123", mountDir := [], Offset := 384 }

/-- A concrete mount environment: only `/mnt/target` exists, and nothing is
currently a mount point. -/
def cMountEnv : MountEnv :=
  { dirExists := fun d => d == gs "/mnt/target", isMountPoint := fun _ => false }

-- ## Theorems

lemma SocketFromString_err {t e : GoStr} (h : (SocketFromString t).2 = some e) :
    e = InvalidSocket := by
  unfold SocketFromString at h
  split at h <;> simp_all

lemma addSocketsLoop_invalid :
    ∀ (ss : List GoStr) (q : AppImagePerms),
      (∃ t ∈ ss, ((SocketFromString t).2.isSome : Prop)) →
      (addSocketsLoop q ss).2 = some InvalidSocket ∧
        (addSocketsLoop q ss).1.Sockets =
          q.Sockets ++ (ss.takeWhile (fun t => (SocketFromString t).2.isNone)).map
            (fun t => (SocketFromString t).1) := by
  intro ss
  induction ss with
  | nil => intro q h; simp at h
  | cons t ts ih =>
    intro q h
    rcases hr : (SocketFromString t).2 with _ | e
    · have hmem : ∃ x ∈ ts, ((SocketFromString x).2.isSome : Prop) := by
        rcases h with ⟨x, hx, hxs⟩
        rcases List.mem_cons.mp hx with rfl | hx'
        · rw [hr] at hxs; simp at hxs
        · exact ⟨x, hx', hxs⟩
      have hstep := ih { q with Sockets := q.Sockets ++ [(SocketFromString t).1] } hmem
      constructor
      · simpa only [addSocketsLoop, hr] using hstep.1
      · have htw : (t :: ts).takeWhile (fun t => (SocketFromString t).2.isNone) =
            t :: ts.takeWhile (fun t => (SocketFromString t).2.isNone) := by
          simp [List.takeWhile_cons, hr]
        rw [htw]
        simpa only [addSocketsLoop, hr, List.map_cons, List.append_assoc,
          List.singleton_append] using hstep.2
    · have he : e = InvalidSocket := SocketFromString_err hr
      have htw : (t :: ts).takeWhile (fun t => (SocketFromString t).2.isNone) =
          ([] : List GoStr) := by
        simp [List.takeWhile_cons, hr]
      subst he
      refine ⟨?_, ?_⟩ <;> simp only [addSocketsLoop, hr, htw, List.map_nil, List.append_nil]

/-- C4 counterexample: the duplicate-socket state `[x11, x11]` is
reachable by the single batch call `AddSockets("x11", "x11")`, and on it a
batch containing an unknown token panics (slice bounds out of range) in
the preliminary `removeSocket` pass — modelled as `none` — instead of
returning the `InvalidSocket` error the claim asserts for every call. -/
theorem AddSockets_dup_state_panics :
    AddSockets permsZero [gs "x11", gs "x11"]
      = some ({ permsZero with Sockets := [gs "x11", gs "x11"] }, none)
    ∧ AddSockets { permsZero with Sockets := [gs "x11", gs "x11"] }
        [gs "x11", gs "bogus"] = none := by
  decide

/-- C4 (amended): a batch `AddSockets` call containing an unknown token,
whose preliminary removal pass completes (it panics on duplicate socket
entries, see the counterexample), returns `InvalidSocket`, stops at the
first invalid token, and the valid sockets appended earlier in the same
call stay in the model: the final socket list is the post-removal list
extended by exactly the valid prefix of the batch. -/
theorem AddSockets_partial_batch (p : AppImagePerms) (ss : List GoStr)
    (p1 : AppImagePerms)
    (hrm : RemoveSockets p ss = some p1)
    (h : ∃ t ∈ ss, ((SocketFromString t).2.isSome : Prop)) :
    ∃ q, AddSockets p ss = some (q, some InvalidSocket)
      ∧ q.Sockets = p1.Sockets ++
          (ss.takeWhile (fun t => (SocketFromString t).2.isNone)).map
            (fun t => (SocketFromString t).1) := by
  have hne : ss ≠ [] := by rintro rfl; simp at h
  have hloop := addSocketsLoop_invalid ss p1 h
  refine ⟨(addSocketsLoop p1 ss).1, ?_, hloop.2⟩
  unfold AddSockets
  rw [if_neg hne, hrm]
  show some (addSocketsLoop p1 ss) = _
  rw [← hloop.1]

/-- Witness for C4: `["x11", "bogus", "wayland"]` on the zero model fails
with `InvalidSocket` and leaves exactly `["x11"]` behind. -/
theorem AddSockets_partial_batch_witness :
    ∃ q, AddSockets permsZero [gs "x11", gs "bogus", gs "wayland"]
        = some (q, some InvalidSocket)
      ∧ q.Sockets = [gs "x11"] := by
  obtain ⟨q, h1, h2⟩ := AddSockets_partial_batch permsZero
    [gs "x11", gs "bogus", gs "wayland"] permsZero (by decide) (by decide)
  exact ⟨q, h1, by rw [h2]; decide⟩

/-- C8 (confirmed): for every shell-wrapper bundle whose first
`sfs_offset=`-matching line is `sfs_offset='1234'`, the computed offset is
exactly 1234 with no error; if no line begins with `sfs_offset=`, the
computation fails with an error and the offset is -1, never 0. -/
theorem getShappImageSize_sfs_offset :
    (∀ pre post, (∀ l ∈ pre, shappMatch l = false) →
      getShappImageSize (pre ++ sfsLine1234 :: post) = (1234, none))
    ∧ (∀ lines, (∀ l ∈ lines, l.take 11 ≠ gs "sfs_offset=") →
      getShappImageSize lines = (-1, some shappNotFoundMsg)) := by
  constructor
  · intro pre post h
    induction pre with
    | nil =>
      have hm : shappMatch sfsLine1234 = true := by decide
      simp only [List.nil_append, getShappImageSize, hm, if_true]
      decide
    | cons l ls ih =>
      have hl : shappMatch l = false := h l (List.mem_cons_self l ls)
      rw [List.cons_append]
      simp only [getShappImageSize, hl, Bool.false_eq_true, if_false]
      exact ih (fun x hx => h x (List.mem_cons_of_mem l hx))
  · intro lines h
    induction lines with
    | nil => rfl
    | cons l ls ih =>
      have hm : shappMatch l = false := by
        have hne : (l.take 11 == gs "sfs_offset=") = false :=
          beq_eq_false_iff_ne.mpr (h l (List.mem_cons_self l ls))
        simp [shappMatch, hne]
      simp only [getShappImageSize, hm, Bool.false_eq_true, if_false]
      exact ih (fun x hx => h x (List.mem_cons_of_mem l hx))

/-- Witness for C8: a concrete two-line script yields offset 1234, and a
concrete script with no `sfs_offset=` line fails with the scan error. -/
theorem getShappImageSize_sfs_offset_witness :
    getShappImageSize ([gs "#!/bin/sh"] ++ sfsLine1234 :: []) = (1234, none)
    ∧ getShappImageSize [gs "#!/bin/sh"] = (-1, some shappNotFoundMsg) :=
  ⟨getShappImageSize_sfs_offset.1 [gs "#!/bin/sh"] [] (by decide),
   getShappImageSize_sfs_offset.2 [gs "#!/bin/sh"] (by decide)⟩

set_option maxRecDepth 10000 in
/-- C1 counterexample: a fully valid type-1 (ISO) AppImage — `elf.NewFile`
(here the `cElfLib` witness checker) accepts its header, and the section
header table ends at byte 192 — is classified TypeISO, yet `GetOffset`
returns the unsupported-type error instead of the ELF-derived offset. -/
theorem GetOffset_iso_errors :
    GetAppImageType isoFile = (1, none)
    ∧ cElfLib.newFileOk isoFile = true
    ∧ GetOffset cElfLib isoFile = (-1, some (gs "unsupported AppImage type")) := by
  decide

/-- C1 (amended): for bundles classified TypeSquashFS (2) that
`elf.NewFile` accepts, the offset is
`sectionHeaderOffset + entrySize * entryCount` from the 64- or 32-bit ELF
header in the file's declared byte order; an ELF class outside {32,64}
never yields offset 0 — `NewFile` rejects such files, so `getElfSize`
returns an error and the source's 0-returning `default:` branch is dead
code; TypeISO bundles are rejected by `GetOffset` (see the counterexample).
Stated for every library satisfying `ElfLib.spec`, hence for the real
`debug/elf`. -/
theorem GetOffset_type2_formula (lib : ElfLib) (f : ByteFile)
    (ht : GetAppImageType f = (2, none))
    (hok : lib.newFileOk f = true) :
    (byteAt f 4 = 2 →
      GetOffset lib f = (((readField f 0x28 8 + readField f 0x3A 2 * readField f 0x3C 2 : Nat) : Int), none))
    ∧ (byteAt f 4 = 1 →
      GetOffset lib f = (((readField f 0x20 4 + readField f 0x2E 2 * readField f 0x30 2 : Nat) : Int), none))
    ∧ (∀ g : ByteFile, byteAt g 4 ≠ 1 → byteAt g 4 ≠ 2 → getElfSize lib g ≠ (0, none)) := by
  have hgo : GetOffset lib f = getElfSize lib f := by
    unfold GetOffset
    rw [ht]
    rfl
  obtain ⟨hm, hcls, hbo, hl64, hl32⟩ := lib.spec f hok
  refine ⟨?_, ?_, ?_⟩
  · intro hc
    rw [hgo]
    unfold getElfSize
    rw [if_pos hok, hc]
    simp [hl64 hc]
  · intro hc
    rw [hgo]
    unfold getElfSize
    rw [if_pos hok, hc]
    simp [hl32 hc]
  · intro g h1 h2
    unfold getElfSize
    by_cases hokg : lib.newFileOk g = true
    · rcases (lib.spec g hokg).2.1 with hg | hg
      · exact absurd hg h1
      · exact absurd hg h2
    · rw [if_neg hokg]
      intro heq
      exact absurd heq (by decide)

set_option maxRecDepth 10000 in
/-- Witness for C1: the fully valid concrete type-2 sample's offset
evaluates to `64 + 64*2 = 192`. -/
theorem GetOffset_type2_formula_witness : GetOffset cElfLib elfSampleValid = (192, none) := by
  have h := (GetOffset_type2_formula cElfLib elfSampleValid (by decide) (by decide)).1 (by decide)
  rw [h]
  decide

-- ### Suffix preservation through `ExpandDir`

lemma replaceFirst_at_start {pat rep s : GoStr} (h : pat.isPrefixOf s) :
    replaceFirst pat rep s = rep ++ s.drop pat.length := by
  cases s with
  | nil =>
    have hp : pat = [] := List.prefix_nil.mp (List.isPrefixOf_iff_prefix.mp h)
    subst hp
    simp [replaceFirst]
  | cons c cs => simp [replaceFirst, h]

lemma replaceFirst_self (pat : GoStr) : ∀ s, replaceFirst pat pat s = s := by
  intro s
  induction s with
  | nil =>
    unfold replaceFirst
    split
    · next h =>
      have hp : pat = [] := List.prefix_nil.mp (List.isPrefixOf_iff_prefix.mp h)
      simp [hp]
    · rfl
  | cons c cs ih =>
    unfold replaceFirst
    split
    · next h =>
      obtain ⟨t, ht⟩ := List.isPrefixOf_iff_prefix.mp h
      rw [← ht, List.drop_left]
    · next h => rw [ih]

lemma suffix_replaceFirst_start {pat rep s e : GoStr}
    (hhead : e.head? = some ':') (hpat : ':' ∉ pat)
    (hp : pat.isPrefixOf s) (he : e <:+ s) :
    e <:+ replaceFirst pat rep s := by
  rw [replaceFirst_at_start hp]
  obtain ⟨u, hu⟩ := he
  obtain ⟨w, hw⟩ := List.isPrefixOf_iff_prefix.mp hp
  by_cases hlen : pat.length ≤ u.length
  · have hpu : pat <+: u :=
      List.prefix_of_prefix_length_le (List.isPrefixOf_iff_prefix.mp hp) ⟨e, hu⟩ hlen
    obtain ⟨z, hz⟩ := hpu
    have hdrop : s.drop pat.length = z ++ e := by
      rw [← hu, ← hz, List.append_assoc, List.drop_left]
    rw [hdrop]
    exact (List.suffix_append z e).trans (List.suffix_append rep (z ++ e))
  · push_neg at hlen
    have hup : u <+: pat :=
      List.prefix_of_prefix_length_le ⟨e, hu⟩ (List.isPrefixOf_iff_prefix.mp hp)
        (Nat.le_of_lt hlen)
    obtain ⟨z, hz⟩ := hup
    have hzne : z ≠ [] := by
      intro h0
      rw [h0, List.append_nil] at hz
      rw [hz] at hlen
      exact Nat.lt_irrefl _ hlen
    have he' : e = z ++ w := by
      have h2 : u ++ e = u ++ (z ++ w) := by
        rw [← List.append_assoc, hz, hw, hu]
      exact List.append_cancel_left h2
    exfalso
    cases z with
    | nil => exact hzne rfl
    | cons zc zt =>
      have hzc : zc = ':' := by
        rw [he'] at hhead
        simpa using hhead
      apply hpat
      rw [← hz, hzc]
      exact List.mem_append_right u (List.mem_cons_self _ _)

/-- One pass of the key-substitution fold keeps a `:`-headed suffix. -/
lemma suffix_foldl_expandStep {e : GoStr} (hhead : e.head? = some ':') :
    ∀ (pairs : List (GoStr × GoStr)), (∀ kv ∈ pairs, ':' ∉ kv.1) →
      ∀ s, e <:+ s → e <:+ pairs.foldl expandStep s := by
  intro pairs
  induction pairs with
  | nil => intro _ s hs; exact hs
  | cons kv rest ih =>
    intro hkeys s hs
    rw [List.foldl_cons]
    apply ih (fun x hx => hkeys x (List.mem_cons_of_mem kv hx))
    unfold expandStep
    split
    · next h =>
      exact suffix_replaceFirst_start hhead (hkeys kv (List.mem_cons_self kv rest)) h hs
    · exact hs

/-- Splitting on a character not occurring in a suffix leaves that suffix
inside the final field. -/
lemma splitOn_last_suffix {c : Char} {e : GoStr} (hc : c ∉ e) :
    ∀ x, e <:+ x → ∃ pre w, x.splitOn c = pre ++ [w] ∧ e <:+ w := by
  intro x
  induction x with
  | nil =>
    intro hx
    have he : e = [] := List.suffix_nil.mp hx
    exact ⟨[], [], rfl, by simp [he]⟩
  | cons y ys ih =>
    intro hx
    obtain ⟨u, hu⟩ := hx
    by_cases hyc : y = c
    · subst hyc
      have hys : e <:+ ys := by
        cases u with
        | nil =>
          exfalso
          apply hc
          have he : e = y :: ys := by simpa using hu
          rw [he]
          exact List.mem_cons_self y ys
        | cons u0 ut =>
          injection hu with h1 h2
          exact ⟨ut, h2⟩
      obtain ⟨pre, w, hsp, hw⟩ := ih hys
      refine ⟨[] :: pre, w, ?_, hw⟩
      have hcons : (y :: ys).splitOn y = [] :: ys.splitOn y := by
        simp only [List.splitOn, List.splitOnP_cons]
        simp
      rw [hcons, hsp]
      rfl
    · rcases hsp0 : ys.splitOn c with _ | ⟨h, t⟩
      · exact absurd hsp0 (List.splitOnP_ne_nil _ ys)
      · have hrec : (y :: ys).splitOn c = (y :: h) :: t := by
          simp only [List.splitOn] at hsp0 ⊢
          rw [List.splitOnP_cons]
          simp [beq_eq_false_iff_ne.mpr hyc, hsp0]
        cases u with
        | nil =>
          -- e is the whole of y :: ys, so c occurs nowhere in ys
          have he : e = y :: ys := by simpa using hu
          have hcys : c ∉ ys := fun hm => hc (by rw [he]; exact List.mem_cons_of_mem y hm)
          have hsingle : ys.splitOn c = [ys] := by
            apply List.splitOnP_eq_single
            intro z hz
            simp only [beq_iff_eq]
            intro hzc
            exact hcys (hzc ▸ hz)
          rw [hsingle] at hsp0
          injection hsp0 with hh ht
          refine ⟨[], y :: ys, ?_, by rw [he]⟩
          rw [hrec, ← hh, ← ht]
          rfl
        | cons u0 ut =>
          injection hu with h1 h2
          obtain ⟨pre', w, hsp', hw⟩ := ih ⟨ut, h2⟩
          rw [hsp0] at hsp'
          cases pre' with
          | nil =>
            simp only [List.nil_append] at hsp'
            injection hsp' with hh ht
            have hwh : e <:+ h := by rw [hh]; exact hw
            refine ⟨[], y :: h, ?_, hwh.trans (List.suffix_cons y h)⟩
            rw [hrec, ht]
            rfl
          | cons p0 pt =>
            simp only [List.cons_append] at hsp'
            injection hsp' with hh ht
            refine ⟨(y :: h) :: pt, w, ?_, hw⟩
            rw [hrec, ht]
            rfl

lemma intercalate_cons_ne (sep a : GoStr) (bs : List GoStr) (h : bs ≠ []) :
    List.intercalate sep (a :: bs) = a ++ sep ++ List.intercalate sep bs := by
  cases bs with
  | nil => exact absurd rfl h
  | cons b bt =>
    simp [List.intercalate, List.intersperse, List.append_assoc]

lemma suffix_intercalate_last (sep : GoStr) :
    ∀ (l : List GoStr) (w : GoStr), w <:+ List.intercalate sep (l ++ [w]) := by
  intro l
  induction l with
  | nil =>
    intro w
    simp [List.intercalate, List.intersperse]
  | cons a l ih =>
    intro w
    rw [List.cons_append, intercalate_cons_ne sep a (l ++ [w]) (by simp)]
    exact (ih w).trans (List.suffix_append (a ++ sep) _)

lemma suffix_filepathClean {e : GoStr} (hlen : 3 ≤ e.length) (hsl : '/' ∉ e) :
    ∀ x, e <:+ x → e <:+ filepathClean x := by
  intro x hx
  have hene : e ≠ [] := by
    intro h0
    rw [h0] at hlen
    simp at hlen
  have hxne : x ≠ [] := List.IsSuffix.ne_nil hx hene
  obtain ⟨pre, w, hsp, hw⟩ := splitOn_last_suffix hsl x hx
  have hsp' : splitOnChar '/' x = pre ++ [w] := hsp
  have hwlen : 3 ≤ w.length := le_trans hlen (List.IsSuffix.length_le hw)
  have hpw : (!(w == ([] : GoStr)) && !(w == gs ".")) = true := by
    have h1 : (w == ([] : GoStr)) = false := by
      rw [beq_eq_false_iff_ne]
      intro h0
      rw [h0] at hwlen
      simp at hwlen
    have h2 : (w == gs ".") = false := by
      rw [beq_eq_false_iff_ne]
      intro h0
      rw [h0] at hwlen
      exact absurd hwlen (by decide)
    rw [h1, h2]
    rfl
  have hwdd : w ≠ gs ".." := by
    intro h0
    rw [h0] at hwlen
    exact absurd hwlen (by decide)
  simp only [filepathClean]
  rw [if_neg hxne, hsp', List.filter_append]
  simp only [List.filter_cons, List.filter_nil, hpw, if_true]
  simp only [cleanSegs]
  rw [List.foldl_append]
  simp only [List.foldl_cons, List.foldl_nil]
  rw [show ∀ acc, cleanStep (x.head? = some '/') acc w = w :: acc from fun acc => by
    unfold cleanStep; rw [if_neg hwdd]]
  rw [List.reverse_cons]
  have hj : e <:+ List.intercalate ['/']
      ((List.foldl (cleanStep (x.head? = some '/')) []
        (List.filter (fun e => !(e == []) && !(e == gs ".")) pre)).reverse ++ [w]) :=
    hw.trans (suffix_intercalate_last ['/'] _ w)
  split
  · exact hj.trans (List.suffix_cons '/' _)
  · rw [if_neg (List.IsSuffix.ne_nil hj hene)]
    exact hj

lemma tilde_isPrefixOf {s : GoStr} (h : s.head? = some '~') :
    (gs "~").isPrefixOf s := by
  cases s with
  | nil => simp at h
  | cons c cs =>
    have hc : c = '~' := by simpa using h
    subst hc
    simp [gs, List.isPrefixOf]

/-- A `:ro`/`:rw` suffix survives `ExpandDir`. -/
lemma suffix_ExpandDir (env : XdgEnv) {e : GoStr}
    (he : e = gs ":ro" ∨ e = gs ":rw") :
    ∀ x, e <:+ x → e <:+ ExpandDir env x := by
  have hhead : e.head? = some ':' := by rcases he with rfl | rfl <;> decide
  have hlen : 3 ≤ e.length := by rcases he with rfl | rfl <;> decide
  have hsl : '/' ∉ e := by rcases he with rfl | rfl <;> decide
  intro x hx
  unfold ExpandDir expandEither
  have hkeys : ∀ kv ∈ xdgPairs env, ':' ∉ kv.1 := by
    intro kv hkv
    have hall : ∀ k ∈ ([gs "xdg-home", gs "xdg-desktop", gs "xdg-download",
        gs "xdg-documents", gs "xdg-music", gs "xdg-pictures", gs "xdg-videos",
        gs "xdg-templates", gs "xdg-publicshare", gs "xdg-config", gs "xdg-cache",
        gs "xdg-data", gs "xdg-state"] : List GoStr), ':' ∉ k := by decide
    have h2 : (xdgPairs env).map Prod.fst = [gs "xdg-home", gs "xdg-desktop",
        gs "xdg-download", gs "xdg-documents", gs "xdg-music", gs "xdg-pictures",
        gs "xdg-videos", gs "xdg-templates", gs "xdg-publicshare", gs "xdg-config",
        gs "xdg-cache", gs "xdg-data", gs "xdg-state"] := rfl
    exact hall kv.1 (h2 ▸ List.mem_map_of_mem Prod.fst hkv)
  have h1 : e <:+ (xdgPairs env).foldl expandStep x :=
    suffix_foldl_expandStep hhead (xdgPairs env) hkeys x hx
  have h2 : e <:+ filepathClean ((xdgPairs env).foldl expandStep x) :=
    suffix_filepathClean hlen hsl _ h1
  rw [replaceFirst_self]
  split
  · next hs => exact suffix_replaceFirst_start hhead (by decide) (tilde_isPrefixOf hs) h2
  · exact h2

/-- Every output of `CleanFile` carries a mode suffix. -/
lemma CleanFile_has_mode (env : XdgEnv) (x : GoStr) :
    (gs ":ro") <:+ CleanFile env x ∨ (gs ":rw") <:+ CleanFile env x := by
  simp only [CleanFile]
  by_cases hl : 3 ≤ x.length
  · rw [if_pos hl]
    by_cases hc : x.drop (x.length - 3) ≠ gs ":ro" ∧ x.drop (x.length - 3) ≠ gs ":rw"
    · rw [if_pos hc]
      exact Or.inl (List.suffix_append _ _)
    · rw [if_neg hc]
      rw [not_and_or, not_not, not_not] at hc
      rcases hc with hc | hc
      · exact Or.inl (suffix_ExpandDir env (Or.inl rfl) x (hc ▸ List.drop_suffix _ x))
      · exact Or.inr (suffix_ExpandDir env (Or.inr rfl) x (hc ▸ List.drop_suffix _ x))
  · rw [if_neg hl]
    rw [if_pos (by decide : ([] : GoStr) ≠ gs ":ro" ∧ ([] : GoStr) ≠ gs ":rw")]
    exact Or.inl (List.suffix_append _ _)

lemma removeFile_subset (env : XdgEnv) (p : AppImagePerms) (str : GoStr) :
    ∀ f ∈ (removeFile env p str).Files, f ∈ p.Files := by
  intro f hf
  simp only [removeFile] at hf
  split at hf
  · rcases List.mem_append.mp hf with h | h
    · exact List.take_subset _ _ h
    · exact List.drop_subset _ _ h
  · exact hf

lemma RemoveFiles_subset (env : XdgEnv) (s : List GoStr) :
    ∀ (p : AppImagePerms), ∀ f ∈ (RemoveFiles env p s).Files, f ∈ p.Files := by
  induction s with
  | nil => intro p f hf; exact hf
  | cons a t ih =>
    intro p f hf
    exact removeFile_subset env p a f (ih (removeFile env p a) f hf)

/-- C9 (confirmed): `AddFiles` preserves the invariant that every stored
file grant ends in `:ro` or `:rw`, and a grant whose original text carries
no mode suffix is stored with `:ro` appended. -/
theorem AddFiles_mode_suffix (env : XdgEnv) (p : AppImagePerms) (s : List GoStr)
    (h : ∀ f ∈ p.Files, (gs ":ro") <:+ f ∨ (gs ":rw") <:+ f) :
    (∀ f ∈ (AddFiles env p s).Files, (gs ":ro") <:+ f ∨ (gs ":rw") <:+ f)
    ∧ (∀ x, ¬ ((gs ":ro") <:+ x ∨ (gs ":rw") <:+ x) →
        (gs ":ro") <:+ CleanFile env x) := by
  constructor
  · intro f hf
    simp only [AddFiles] at hf
    rcases List.mem_append.mp hf with h1 | h1
    · exact h f (RemoveFiles_subset env s p f h1)
    · obtain ⟨y, _, hy⟩ := List.mem_map.mp h1
      exact hy ▸ CleanFile_has_mode env y
  · intro x hx
    simp only [CleanFile]
    by_cases hl : 3 ≤ x.length
    · rw [if_pos hl]
      by_cases hc : x.drop (x.length - 3) ≠ gs ":ro" ∧ x.drop (x.length - 3) ≠ gs ":rw"
      · rw [if_pos hc]
        exact List.suffix_append _ _
      · exfalso
        rw [not_and_or, not_not, not_not] at hc
        apply hx
        rcases hc with hc | hc
        · exact Or.inl (hc ▸ List.drop_suffix _ x)
        · exact Or.inr (hc ▸ List.drop_suffix _ x)
    · rw [if_neg hl]
      rw [if_pos (by decide : ([] : GoStr) ≠ gs ":ro" ∧ ([] : GoStr) ≠ gs ":rw")]
      exact List.suffix_append _ _

/-- Witness for C9: concrete grants with and without explicit modes all end
up mode-suffixed, and a bare path gets `:ro`. -/
theorem AddFiles_mode_suffix_witness :
    (∀ f ∈ (AddFiles cEnv permsZero [gs "/a", gs "/b:rw"]).Files,
      (gs ":ro") <:+ f ∨ (gs ":rw") <:+ f)
    ∧ (gs ":ro") <:+ CleanFile cEnv (gs "/a") := by
  have h := AddFiles_mode_suffix cEnv permsZero [gs "/a", gs "/b:rw"] (by decide)
  exact ⟨h.1, h.2 (gs "/a") (by decide)⟩

-- ### C5: the upsert behaviour of AddFiles

lemma foldl_expandStep_untouched :
    ∀ (pairs : List (GoStr × GoStr)) (s : GoStr),
      (∀ kv ∈ pairs, kv.1.isPrefixOf s = false) →
      pairs.foldl expandStep s = s := by
  intro pairs
  induction pairs with
  | nil => intro s _; rfl
  | cons kv rest ih =>
    intro s h
    rw [List.foldl_cons]
    have h0 : expandStep s kv = s := by
      unfold expandStep
      rw [h kv (List.mem_cons_self kv rest)]
      simp
    rw [h0]
    exact ih s (fun x hx => h x (List.mem_cons_of_mem kv hx))

lemma xdgPairs_fst (env : XdgEnv) :
    (xdgPairs env).map Prod.fst = [gs "xdg-home", gs "xdg-desktop", gs "xdg-download",
      gs "xdg-documents", gs "xdg-music", gs "xdg-pictures", gs "xdg-videos",
      gs "xdg-templates", gs "xdg-publicshare", gs "xdg-config", gs "xdg-cache",
      gs "xdg-data", gs "xdg-state"] := rfl

/-- Strings not touched by any expansion step are fixed by `ExpandDir`. -/
lemma ExpandDir_fixed (env : XdgEnv) (s : GoStr)
    (hks : ∀ k ∈ (xdgPairs env).map Prod.fst, k.isPrefixOf s = false)
    (hclean : filepathClean s = s) (htilde : s.head? ≠ some '~') :
    ExpandDir env s = s := by
  simp only [ExpandDir, expandEither]
  rw [foldl_expandStep_untouched _ _
    (fun kv hkv => hks kv.1 (List.mem_map_of_mem Prod.fst hkv))]
  rw [hclean, if_neg htilde]
  exact replaceFirst_self _ _

lemma CleanFile_x_ro (env : XdgEnv) : CleanFile env (gs "/x:ro") = gs "/x:ro" := by
  simp only [CleanFile]
  rw [if_neg (by decide)]
  exact ExpandDir_fixed env (gs "/x:ro") (by rw [xdgPairs_fst]; decide) (by decide) (by decide)

lemma CleanFile_x_rw (env : XdgEnv) : CleanFile env (gs "/x:rw") = gs "/x:rw" := by
  simp only [CleanFile]
  rw [if_neg (by decide)]
  exact ExpandDir_fixed env (gs "/x:rw") (by rw [xdgPairs_fst]; decide) (by decide) (by decide)

lemma removeFile_x (env : XdgEnv) (p : AppImagePerms) (t : GoStr)
    (ht : t = gs "/x:ro" ∨ t = gs "/x:rw") :
    removeFile env p t =
      (match ContainsAny p.Files [gs "/x:ro", gs "/x:rw"] with
       | some i => { p with Files := p.Files.take i ++ p.Files.drop (i + 1) }
       | none => p) := by
  have hcf : CleanFile env t = t := by
    rcases ht with rfl | rfl
    · exact CleanFile_x_ro env
    · exact CleanFile_x_rw env
  simp only [removeFile, CleanFiles, List.map_cons, List.map_nil, List.getD_cons_zero, hcf]
  rcases ht with rfl | rfl
  · rw [show List.intercalate [':'] (splitOnChar ':' (gs "/x:ro")).dropLast ++ gs ":ro" =
        gs "/x:ro" from by decide,
      show List.intercalate [':'] (splitOnChar ':' (gs "/x:ro")).dropLast ++ gs ":rw" =
        gs "/x:rw" from by decide]
  · rw [show List.intercalate [':'] (splitOnChar ':' (gs "/x:rw")).dropLast ++ gs ":ro" =
        gs "/x:ro" from by decide,
      show List.intercalate [':'] (splitOnChar ':' (gs "/x:rw")).dropLast ++ gs ":rw" =
        gs "/x:rw" from by decide]

lemma Contains_eq_none {x : GoStr} : ∀ {l : List GoStr}, x ∉ l → Contains l x = none := by
  intro l
  induction l with
  | nil => intro _; rfl
  | cons y ys ih =>
    intro h
    unfold Contains
    rw [if_neg (show ¬ y = x from
      fun h0 => h (by rw [h0]; exact List.mem_cons_self x ys))]
    rw [ih (fun hm => h (List.mem_cons_of_mem y hm))]
    rfl

lemma Contains_append_first {x : GoStr} :
    ∀ (l1 l2 : List GoStr), x ∉ l1 → Contains (l1 ++ x :: l2) x = some l1.length := by
  intro l1
  induction l1 with
  | nil => intro l2 _; simp [Contains]
  | cons y ys ih =>
    intro l2 h
    rw [List.cons_append]
    unfold Contains
    rw [if_neg (show ¬ y = x from
      fun h0 => h (by rw [h0]; exact List.mem_cons_self x ys))]
    rw [ih l2 (fun hm => h (List.mem_cons_of_mem y hm))]
    rfl

lemma first_occ {x : GoStr} : ∀ {l : List GoStr}, x ∈ l →
    ∃ l1 l2, l = l1 ++ x :: l2 ∧ x ∉ l1 := by
  intro l
  induction l with
  | nil => intro h; exact absurd h (List.not_mem_nil x)
  | cons y ys ih =>
    intro h
    by_cases hy : y = x
    · exact ⟨[], ys, by simp [hy], List.not_mem_nil x⟩
    · rcases List.mem_cons.mp h with h0 | h0
      · exact absurd h0.symm hy
      · obtain ⟨l1, l2, hEq, hn⟩ := ih h0
        exact ⟨y :: l1, l2, by rw [List.cons_append, hEq],
          fun hm => (List.mem_cons.mp hm).elim (fun h1 => hy h1.symm) hn⟩

lemma eraseFirstTwo_counts {a b : GoStr} (hab : a ≠ b) :
    ∀ (l : List GoStr), l.count a + l.count b ≤ 1 →
      ((match ContainsAny l [a, b] with
        | some i => l.take i ++ l.drop (i + 1)
        | none => l).count a = 0
      ∧ (match ContainsAny l [a, b] with
        | some i => l.take i ++ l.drop (i + 1)
        | none => l).count b = 0) := by
  intro l h
  have hab' : (a == b) = false := beq_eq_false_iff_ne.mpr hab
  have hba' : (b == a) = false := beq_eq_false_iff_ne.mpr (Ne.symm hab)
  by_cases ha : a ∈ l
  · have hca : l.count a = 1 := by
      have h1 : l.count a ≠ 0 := fun h0 => (List.count_eq_zero.mp h0) ha
      omega
    have hcb : l.count b = 0 := by omega
    obtain ⟨l1, l2, hEq, hn⟩ := first_occ ha
    subst hEq
    have hCA : ContainsAny (l1 ++ a :: l2) [a, b] = some l1.length := by
      simp only [ContainsAny, Contains_append_first l1 l2 hn]
    rw [hCA]
    dsimp only
    rw [List.take_left' rfl, List.append_cons, List.drop_left' (by simp)]
    simp only [List.count_append, List.count_cons, beq_self_eq_true, hab', hba',
      if_true, if_false] at hca hcb ⊢
    omega
  · by_cases hb : b ∈ l
    · have hcb : l.count b = 1 := by
        have h1 : l.count b ≠ 0 := fun h0 => (List.count_eq_zero.mp h0) hb
        omega
      have hca : l.count a = 0 := List.count_eq_zero.mpr ha
      obtain ⟨l1, l2, hEq, hn⟩ := first_occ hb
      subst hEq
      have hCA : ContainsAny (l1 ++ b :: l2) [a, b] = some l1.length := by
        simp only [ContainsAny, Contains_eq_none ha, Contains_append_first l1 l2 hn]
      rw [hCA]
      dsimp only
      rw [List.take_left' rfl, List.append_cons, List.drop_left' (by simp)]
      simp only [List.count_append, List.count_cons, beq_self_eq_true, hab', hba',
        if_true, if_false] at hca hcb ⊢
      omega
    · have hCA : ContainsAny l [a, b] = none := by
        simp only [ContainsAny, Contains_eq_none ha, Contains_eq_none hb]
      rw [hCA]
      exact ⟨List.count_eq_zero.mpr ha, List.count_eq_zero.mpr hb⟩

lemma removeFile_x_counts (env : XdgEnv) (q : AppImagePerms) (t : GoStr)
    (ht : t = gs "/x:ro" ∨ t = gs "/x:rw")
    (hq : q.Files.count (gs "/x:ro") + q.Files.count (gs "/x:rw") ≤ 1) :
    (removeFile env q t).Files.count (gs "/x:ro") = 0
    ∧ (removeFile env q t).Files.count (gs "/x:rw") = 0 := by
  rw [removeFile_x env q t ht]
  have h := eraseFirstTwo_counts (show gs "/x:ro" ≠ gs "/x:rw" by decide) q.Files hq
  rcases hCA : ContainsAny q.Files [gs "/x:ro", gs "/x:rw"] with _ | i
  · rw [hCA] at h
    exact h
  · rw [hCA] at h
    exact h

lemma AddFiles_x_files (env : XdgEnv) (q : AppImagePerms) (t : GoStr)
    (ht : t = gs "/x:ro" ∨ t = gs "/x:rw") :
    (AddFiles env q [t]).Files = (removeFile env q t).Files ++ [t] := by
  have hcf : CleanFile env t = t := by
    rcases ht with rfl | rfl
    · exact CleanFile_x_ro env
    · exact CleanFile_x_rw env
  simp only [AddFiles, RemoveFiles, List.foldl_cons, List.foldl_nil, CleanFiles,
    List.map_cons, List.map_nil, hcf]

/-- C5 (amended): on any model holding at most one grant for the canonical
path `/x`, adding `/x:rw` and then `/x:ro` leaves exactly one `/x` grant,
with mode `ro`. -/
theorem AddFiles_upsert_x (env : XdgEnv) (p : AppImagePerms)
    (h : p.Files.count (gs "/x:ro") + p.Files.count (gs "/x:rw") ≤ 1) :
    (AddFiles env (AddFiles env p [gs "/x:rw"]) [gs "/x:ro"]).Files.count (gs "/x:ro") = 1
    ∧ (AddFiles env (AddFiles env p [gs "/x:rw"]) [gs "/x:ro"]).Files.count (gs "/x:rw") = 0 := by
  have h1 := removeFile_x_counts env p (gs "/x:rw") (Or.inr rfl) h
  have hf1 : (AddFiles env p [gs "/x:rw"]).Files =
      (removeFile env p (gs "/x:rw")).Files ++ [gs "/x:rw"] :=
    AddFiles_x_files env p _ (Or.inr rfl)
  set p1 := AddFiles env p [gs "/x:rw"] with hp1
  have hc1a : p1.Files.count (gs "/x:ro") = 0 := by
    rw [hf1, List.count_append, h1.1]
    decide
  have hc1b : p1.Files.count (gs "/x:rw") = 1 := by
    rw [hf1, List.count_append, h1.2]
    decide
  have hsum1 : p1.Files.count (gs "/x:ro") + p1.Files.count (gs "/x:rw") ≤ 1 := by
    rw [hc1a, hc1b]
  have h2 := removeFile_x_counts env p1 (gs "/x:ro") (Or.inl rfl) hsum1
  have hf2 : (AddFiles env p1 [gs "/x:ro"]).Files =
      (removeFile env p1 (gs "/x:ro")).Files ++ [gs "/x:ro"] :=
    AddFiles_x_files env p1 _ (Or.inl rfl)
  constructor
  · rw [hf2, List.count_append, h2.1]
    decide
  · rw [hf2, List.count_append, h2.2]
    decide

/-- C5 counterexample: on a model already holding both mode variants of
`/x` — itself producible by the single batch call
`AddFiles("/x:ro", "/x:rw")` — adding `/x:rw` then `/x:ro` leaves TWO
grants for `/x`, one of them still `rw`, because `removeFile` only erases
the first matching variant. -/
theorem AddFiles_upsert_cex :
    pFxFx.Files = (AddFiles cEnv permsZero [gs "/x:ro", gs "/x:rw"]).Files
    ∧ (AddFiles cEnv (AddFiles cEnv pFxFx [gs "/x:rw"]) [gs "/x:ro"]).Files
        = [gs "/x:rw", gs "/x:ro"] := by
  decide

/-- Witness for C5: from the empty model the two adds leave exactly the
single grant `/x:ro`. -/
theorem AddFiles_upsert_x_witness :
    (AddFiles cEnv (AddFiles cEnv permsZero [gs "/x:rw"]) [gs "/x:ro"]).Files.count (gs "/x:ro") = 1
    ∧ (AddFiles cEnv (AddFiles cEnv permsZero [gs "/x:rw"]) [gs "/x:ro"]).Files.count (gs "/x:rw") = 0 :=
  AddFiles_upsert_x cEnv permsZero (by decide)

-- ### C2, C7, C10: mount target, passthrough, level guard

/-- C2: evaluating `Mount` with one explicit target at a concrete failing
input.  The existing explicit target `/mnt/target` is checked for existence
but the mount helper is invoked on `ai.mountDir` — the empty string of a
freshly opened handle — not on the target; a missing target still fails
with `NoMountPoint` as the claim says. -/
theorem Mount_explicit_target_ignored :
    MountExplicit cMountEnv cAiFresh (gs "/mnt/target")
      = .mounted (gs "/apps/foo.AppImage") [] 384
    ∧ MountExplicit cMountEnv cAiFresh (gs "/nonexistent") = .err NoMountPoint := by
  decide

/-- C7 (confirmed): policy compilation on an unmounted handle fails with
the not-mounted error regardless of level, and on a mounted handle with
level 0 returns the passthrough argument vector unchanged. -/
theorem WrapArgs_level0_passthrough (env : WrapEnv) (ai : AiState)
    (perms : AppImagePerms) (args : List GoStr) :
    (ai.mountDir = [] → WrapArgs env ai perms args = .error wrapNotMountedMsg)
    ∧ (ai.mountDir ≠ [] → perms.Level = 0 → WrapArgs env ai perms args = .ok args) := by
  constructor
  · intro h
    unfold WrapArgs
    rw [if_pos h]
  · intro h h0
    unfold WrapArgs
    rw [if_neg h, if_pos h0]

/-- Witness for C7: an unmounted concrete handle errors, a mounted one at
level 0 echoes the arguments. -/
theorem WrapArgs_level0_passthrough_witness :
    WrapArgs cWrapEnv cAiFresh permsZero [gs "-v"] = .error wrapNotMountedMsg
    ∧ WrapArgs cWrapEnv cAi permsZero [gs "-v"] = .ok [gs "-v"] :=
  ⟨(WrapArgs_level0_passthrough cWrapEnv cAiFresh permsZero [gs "-v"]).1 rfl,
   (WrapArgs_level0_passthrough cWrapEnv cAi permsZero [gs "-v"]).2 (by decide) rfl⟩

/-- C10 (confirmed): `Sandbox` rejects every level outside 1..3 — including
the -1 sentinel and 0 — before anything else, so a successful result (the
enforcer invocation) only ever happens with a level in 1..3. -/
theorem Sandbox_level_guard (env : WrapEnv) (ai : AiState)
    (perms : AppImagePerms) (args : List GoStr) :
    (perms.Level < 1 ∨ perms.Level > 3 →
      Sandbox env ai perms args = .error sandboxLevelMsg)
    ∧ (∀ inv, Sandbox env ai perms args = .ok inv →
        1 ≤ perms.Level ∧ perms.Level ≤ 3) := by
  constructor
  · intro h
    unfold Sandbox
    rw [if_pos h]
  · intro inv h
    by_cases hg : perms.Level < 1 ∨ perms.Level > 3
    · unfold Sandbox at h
      rw [if_pos hg] at h
      exact absurd h (by simp)
    · push_neg at hg
      omega

/-- Witness for C10: the -1 sentinel and level 0 are both rejected without
producing an enforcer invocation. -/
theorem Sandbox_level_guard_witness :
    Sandbox cWrapEnv cAi { permsZero with Level := -1 } [] = .error sandboxLevelMsg
    ∧ Sandbox cWrapEnv cAi permsZero [] = .error sandboxLevelMsg :=
  ⟨(Sandbox_level_guard cWrapEnv cAi { permsZero with Level := -1 } []).1 (by decide),
   (Sandbox_level_guard cWrapEnv cAi permsZero []).1 (by decide)⟩

-- ### C6: Wayland suppresses X11

lemma foldl_append_map (f : GoStr → List GoStr) :
    ∀ (keys : List GoStr) (init : List GoStr),
      keys.foldl (fun s k => s ++ f k) init = init ++ (keys.map f).flatten := by
  intro keys
  induction keys with
  | nil => intro init; simp
  | cons k ks ih =>
    intro init
    rw [List.foldl_cons, ih, List.map_cons, List.flatten_cons, List.append_assoc]

lemma infix_flatten_map (f : GoStr → List GoStr) {a : GoStr} :
    ∀ {keys : List GoStr}, a ∈ keys → f a <:+: (keys.map f).flatten := by
  intro keys
  induction keys with
  | nil => intro h; exact absurd h (List.not_mem_nil a)
  | cons k ks ih =>
    intro h
    rw [List.map_cons, List.flatten_cons]
    rcases List.mem_cons.mp h with rfl | h'
    · exact ⟨[], (ks.map f).flatten, by simp⟩
    · exact (ih h').trans ⟨f k, [], by simp⟩

/-- C6 (confirmed): when both `wayland` and `x11` are granted and the host
reports an active Wayland display, the `x11` socket contributes nothing to
the compiled directives, while the full Wayland bundle appears in them. -/
theorem parseSockets_wayland_over_x11 (env : WrapEnv) (ai : AiState)
    (perms : AppImagePerms)
    (hw : env.waylandDisplay.isSome = true)
    (hx : (gs "x11") ∈ perms.Sockets) (hwl : (gs "wayland") ∈ perms.Sockets) :
    socketContrib env ai perms (gs "x11") = []
    ∧ waylandBundle env ai <:+: parseSockets env ai perms := by
  have hcx : perms.Sockets.contains (gs "x11") = true := List.elem_eq_true_of_mem hx
  have hcw : perms.Sockets.contains (gs "wayland") = true := List.elem_eq_true_of_mem hwl
  have hwb : socketContrib env ai perms (gs "wayland") = waylandBundle env ai := by
    unfold socketContrib
    rw [if_pos hcw]
    rw [if_neg (fun h => absurd h.2.2 (by decide))]
    rw [if_neg (fun h => absurd h.1 (by decide))]
    rfl
  constructor
  · unfold socketContrib
    rw [if_pos hcx]
    rw [if_pos (show env.waylandDisplay.isSome = true
        ∧ perms.Sockets.contains (gs "wayland") = true
        ∧ gs "x11" = gs "x11" from ⟨hw, hcw, rfl⟩)]
  · have hmem : (gs "wayland") ∈ socketKeys := by decide
    have hinf : socketContrib env ai perms (gs "wayland") <:+:
        (socketKeys.map (socketContrib env ai perms)).flatten :=
      infix_flatten_map _ hmem
    rw [hwb] at hinf
    have hps : parseSockets env ai perms =
        (socketKeys.map (socketContrib env ai perms)).flatten := by
      unfold parseSockets
      rw [foldl_append_map, List.nil_append]
    rw [hps]
    exact hinf

/-- Witness for C6: with the concrete Wayland-active environment and the
`x11;wayland` socket grants, the x11 contribution is empty and the Wayland
bundle sits inside the socket directives. -/
theorem parseSockets_wayland_over_x11_witness :
    socketContrib cWrapEnv cAi { permsZero with Sockets := [gs "x11", gs "wayland"] } (gs "x11") = []
    ∧ waylandBundle cWrapEnv cAi <:+:
        parseSockets cWrapEnv cAi { permsZero with Sockets := [gs "x11", gs "wayland"] } :=
  parseSockets_wayland_over_x11 cWrapEnv cAi _ (by decide) (by decide) (by decide)

-- ### C3: tiering is not monotone

/-- C3 counterexample: with otherwise-identical (empty) grants, the level-1
compilation contains the read-only `/sys` exposure and the level-2
compilation does not, refuting the superset claim for L1 = 1 < L2 = 2. -/
theorem levelTier_superset_cex :
    (gs "/sys") ∈ mainWrapArgs cWrapEnv cAi { permsZero with Level := 1 }
    ∧ (gs "/sys") ∉ mainWrapArgs cWrapEnv cAi { permsZero with Level := 2 } := by
  decide

/-- C3 (amended): the only monotone relation among the level tiers is the
trivial one — the level-3 tier block is empty (for every environment and
handle), so every level's tier directives contain it; between levels 1 and
2 neither compilation contains the other: level 2 replaces level-1's
blanket exposure with a narrower allow-list (e.g. the `/etc/fonts` bind
appears only at level 2, the `/sys` bind only at level 1). -/
theorem levelTier_monotone_amended :
    (∀ (env : WrapEnv) (ai : AiState), levelTier env ai 3 = [])
    ∧ ((gs "/etc/fonts") ∈ mainWrapArgs cWrapEnv cAi { permsZero with Level := 2 }
        ∧ (gs "/etc/fonts") ∉ mainWrapArgs cWrapEnv cAi { permsZero with Level := 1 }) := by
  refine ⟨fun env ai => rfl, by decide⟩
